import Mathlib

/-!
Shallow embedding of the X Profile Notes extension core
(`src/content/content.js`, `src/shared/logger.js`, and the test-harness
bridge helper `getExtensionLogs`), together with theorems settling the
specification claims about it.

JavaScript numbers appearing here are integer-valued (timestamps in ms,
scores); they are modelled as `Nat`/`Int`.  Fallible storage writes are
modelled as always succeeding (storage failure is outside every claim);
the `wrote` flag of `OpResult` records whether `chrome.storage.local.set`
was reached at all.
-/

namespace XPN

/-! ### `normalizeUsername` (content.js line 30-32)

`username.toLowerCase().replace('@', '')` — JavaScript `String.replace`
with a string pattern removes the FIRST occurrence of `'@'` anywhere in
the string (not only a leading one). -/

/-- Remove the first occurrence of `'@'` from a character list, as
JavaScript `str.replace('@', '')` does. -/
def replaceFirstAt : List Char → List Char
  | [] => []
  | c :: cs => if c = '@' then cs else c :: replaceFirstAt cs

/-- The content.js function `normalizeUsername(username)`:
`username.toLowerCase().replace('@', '')`.  `toLowerCase` lowercases
character-wise, modelled by mapping `Char.toLower` over the characters
(the same function `String.toLower` maps; see
`normalizeUsername_eq_toLower`). -/
def normalizeUsername (username : String) : String :=
  ⟨replaceFirstAt (username.data.map Char.toLower)⟩

/-! ### Note records and the in-memory cache (content.js) -/

/-- One entry of a record's `scores` array: `{value, timestamp}`. -/
structure ScoreSample where
  value : Int
  timestamp : Nat
  deriving Repr, DecidableEq

/-- A value of the `notes` mapping.  `score` is the legacy field:
`none` models the JS property being absent (`undefined`), `some none`
models an explicit `null`, `some (some v)` a numeric legacy score.
`scores` is `none` when the property is absent and `some l` when it is
an array (possibly empty). -/
structure NoteRecord where
  note : String
  score : Option (Option Int)
  scores : Option (List ScoreSample)
  createdAt : Nat
  updatedAt : Nat
  deriving Repr, DecidableEq

/-- The `notesCache` object: an insertion-ordered string-keyed map. -/
abbrev NotesCache := List (String × NoteRecord)

/-- Lookup `notesCache[k]`; `none` when the key is absent.  JS object
keys are unique, so the association list never holds a duplicate key. -/
def getRec : NotesCache → String → Option NoteRecord
  | [], _ => none
  | p :: ps, k => if p.1 = k then some p.2 else getRec ps k

/-- Assignment `notesCache[k] = v`, JS property assignment: overwrite in place if
the key exists (keeping its position in insertion order), otherwise
append at the end. -/
def setRec : NotesCache → String → NoteRecord → NotesCache
  | [], k, v => [(k, v)]
  | p :: ps, k, v => if p.1 = k then (k, v) :: ps else p :: setRec ps k v

/-- Deletion `delete notesCache[k]`. -/
def delRec : NotesCache → String → NotesCache
  | [], _ => []
  | p :: ps, k => if p.1 = k then delRec ps k else p :: delRec ps k

/-! ### `migrateNoteFormat` (content.js lines 34-47) -/

/-- The content.js function `migrateNoteFormat(noteData)`: lift the legacy `score` field into the
`scores` array.  Mirrors the JS exactly:
`noteData.score !== undefined && !noteData.scores` guards the lift (an
existing array — even empty — is truthy, so it blocks the lift);
`noteData.updatedAt || Date.now()` falls back to the current time when
`updatedAt` is falsy (0); the final branch ensures `scores` exists. -/
def migrateNoteFormat (now : Nat) (noteData : NoteRecord) : NoteRecord :=
  let d1 :=
    if noteData.score ≠ none ∧ noteData.scores = none then
      { noteData with
        scores := some (match noteData.score with
          | some (some v) =>
              [{ value := v
                 timestamp := if noteData.updatedAt ≠ 0 then noteData.updatedAt else now }]
          | _ => [])
        score := none }
    else noteData
  if d1.scores = none then { d1 with scores := some [] } else d1

/-! ### `saveNote` (content.js lines 76-126) -/

/-- Result of a storage-touching operation: the cache afterwards, the JS
return value, and whether `chrome.storage.local.set` was reached. -/
structure OpResult where
  cache : NotesCache
  ret : Bool
  wrote : Bool
  deriving Repr, DecidableEq

/-- The content.js function `saveNote(username, noteText, score = null)`.  `noteText : Option
String` models `undefined`/`null` as `none`; `score : Option Int` models
the `null` default as `none`.  `now` is `Date.now()`. -/
def saveNote (cache : NotesCache) (username : String) (noteText : Option String)
    (score : Option Int) (now : Nat) : OpResult :=
  let nUsername := normalizeUsername username
  let rec0 : NoteRecord :=
    match getRec cache nUsername with
    | none => { note := "", score := none, scores := some [], createdAt := now, updatedAt := now }
    | some r => migrateNoteFormat now r
  -- `noteText ? noteText.trim() : ''` — the empty string is falsy
  let rec1 := { rec0 with note := match noteText with
    | some t => if t ≠ "" then t.trim else ""
    | none => "" }
  -- `if (score !== null && score >= 1 && score <= 5)`
  let rec2 :=
    match score with
    | some s =>
        if 1 ≤ s ∧ s ≤ 5 then
          let scs : List ScoreSample :=
            rec1.scores.getD [] ++ [({ value := s, timestamp := now } : ScoreSample)]
          -- `scores.slice(-5)` keeps the last 5
          { rec1 with scores := some (if scs.length > 5 then scs.drop (scs.length - 5) else scs) }
        else rec1
    | none => rec1
  let rec3 := { rec2 with updatedAt := now }
  let hasContent := rec3.note ≠ "" ∨ (rec3.scores.getD []).length > 0
  { cache := if hasContent then setRec cache nUsername rec3 else delRec cache nUsername
    ret := true
    wrote := true }

/-! ### `deleteScoreAtIndex` (content.js lines 129-153) -/

/-- The guard `notesCache[normalizeUsername(u)]?.scores?.[index]` the JS
checks before splicing (a JS array read at a negative, fractional or
out-of-bounds index is `undefined`). -/
def sampleAt (cache : NotesCache) (username : String) (index : Int) : Option ScoreSample :=
  match getRec cache (normalizeUsername username) with
  | none => none
  | some noteData =>
    match noteData.scores with
    | none => none
    | some scs =>
        if 0 ≤ index ∧ index < (scs.length : Int) then scs.get? index.toNat else none

/-- The content.js function `deleteScoreAtIndex(username, index)`. -/
def deleteScoreAtIndex (cache : NotesCache) (username : String) (index : Int)
    (now : Nat) : OpResult :=
  let nUsername := normalizeUsername username
  match getRec cache nUsername with
  | none => { cache := cache, ret := false, wrote := false }
  | some noteData =>
    match noteData.scores with
    | none => { cache := cache, ret := false, wrote := false }
    | some scs =>
        if 0 ≤ index ∧ index < (scs.length : Int) then
          let scs2 := scs.eraseIdx index.toNat
          let noteData2 := { noteData with scores := some scs2, updatedAt := now }
          let hasContent := noteData2.note ≠ "" ∨ scs2.length > 0
          { cache := if hasContent then setRec cache nUsername noteData2
                     else delRec cache nUsername
            ret := true
            wrote := true }
        else { cache := cache, ret := false, wrote := false }

/-! ### `getAverageScore` (content.js lines 155-163) -/

/-- JavaScript `Math.round`: round half towards positive infinity. -/
def jsRound (q : ℚ) : ℤ := ⌊q + 1/2⌋

/-- Sum of the `value` fields, as the JS `reduce((acc, s) => acc + s.value, 0)`. -/
def sumValues (scs : List ScoreSample) : Int :=
  scs.foldl (fun acc s => acc + s.value) 0

/-- The content.js function `getAverageScore(username)`: `null` unless the record exists and has a
non-empty `scores` array, else `Math.round((sum / length) * 10) / 10`. -/
def getAverageScore (cache : NotesCache) (username : String) : Option ℚ :=
  match getRec cache (normalizeUsername username) with
  | none => none
  | some noteData =>
    match noteData.scores with
    | none => none
    | some [] => none
    | some scs => some ((jsRound (((sumValues scs : ℚ) / scs.length) * 10) : ℚ) / 10)

/-! ### The shared logger (`src/shared/logger.js`) -/

/-- A queued/stored log entry `{t, s, l, m}`.  The `args`-to-`message`
formatting of `xpnLog` is string plumbing outside every claim; `m` holds
the already-formatted message. -/
structure LogEntry where
  t : Nat
  s : String
  l : String
  m : String
  deriving Repr, DecidableEq

/-- The logger's module-level state: `logQueue`, `flushTimeout` (modelled
as the absolute time the pending timer will fire, `none` when no timer is
set), `isFlushing`, and the persisted `__xpn_debug_logs__` array. -/
structure LoggerState where
  logQueue : List LogEntry
  flushTimeout : Option Nat
  isFlushing : Bool
  stored : List LogEntry
  deriving Repr, DecidableEq

/-- The logger.js constant `XPN_MAX_LOGS`. -/
def XPN_MAX_LOGS : Nat := 1000

/-- The last `n` elements of a list (`Array.slice(-n)` on a too-long
array; the identity when the list is no longer than `n`). -/
def lastN (n : Nat) (l : List LogEntry) : List LogEntry :=
  l.drop (l.length - n)

/-- The logger.js function `xpnLog(source, level, ...args)` at time `now` (storage side only;
the unconditional console write has no state).  The entry is pushed onto
`logQueue`; then `if (!flushTimeout) flushTimeout = setTimeout(flushLogs, 100)`
arms the 100 ms timer ONLY when none is pending. -/
def xpnLog (st : LoggerState) (source level message : String) (now : Nat) : LoggerState :=
  let st1 := { st with
    logQueue := st.logQueue ++
      [({ t := now, s := source, l := level, m := message } : LogEntry)] }
  match st1.flushTimeout with
  | none => { st1 with flushTimeout := some (now + 100) }
  | some _ => st1

/-- The logger.js function `flushLogs()`, run to completion with no interleaved enqueue (the JS
function is async but this model is its single-context, uninterrupted
execution; `isFlushing` is set on entry and cleared in `finally`, and
with the queue drained the follow-up timer at lines 93-95 is not set). -/
def flushLogs (st : LoggerState) : LoggerState :=
  let st0 := { st with flushTimeout := none }
  if st0.logQueue = [] ∨ st0.isFlushing then st0
  else
    let combined := st0.stored ++ st0.logQueue
    let trimmed := if combined.length > XPN_MAX_LOGS
      then lastN XPN_MAX_LOGS combined
      else combined
    { st0 with logQueue := [], stored := trimmed, isFlushing := false }

/-- One `xpnLog` call's arguments: source, level, message, time. -/
structure LogCall where
  source : String
  level : String
  message : String
  time : Nat
  deriving Repr, DecidableEq

/-- Fold a burst of `xpnLog` calls over the logger state. -/
def applyLogCalls (st : LoggerState) (calls : List LogCall) : LoggerState :=
  calls.foldl (fun s c => xpnLog s c.source c.level c.message c.time) st

/-! ### The test-harness bridge (`getExtensionLogs`, src/unnamed/part_000)

The observer registers a `{once: true}` listener for
`__xpn_logs_response__`, dispatches `__xpn_get_logs__`, and arms
`setTimeout(() => resolve('[]'), 2000)`.  The promise settles with
whichever of the two `resolve` calls runs first; the payload travels as a
JSON string whose round trip is the identity on the log list, so response
events are modelled as `(arrival time, log list)` pairs. -/

/-- The bridge timeout in ms. -/
def BRIDGE_TIMEOUT_MS : Nat := 2000

/-- The harness helper `getExtensionLogs` issued at time `t0`, given the stream of
`__xpn_logs_response__` events the one-shot listener could see (in
arrival order).  Returns the resolved log list and the settle time: the
first response, if it arrives while the timeout is still pending,
otherwise `JSON.parse('[]') = []` when the timer fires at
`t0 + BRIDGE_TIMEOUT_MS`. -/
def getExtensionLogs (responses : List (Nat × List LogEntry)) (t0 : Nat) :
    List LogEntry × Nat :=
  match responses with
  | [] => ([], t0 + BRIDGE_TIMEOUT_MS)
  | (tr, payload) :: _ =>
      if tr ≤ t0 + BRIDGE_TIMEOUT_MS then (payload, tr)
      else ([], t0 + BRIDGE_TIMEOUT_MS)

/-! ### Derived observers used by the claims -/

/-- The `value` fields of a user's stored samples, in stored order. -/
def scoreValues (cache : NotesCache) (username : String) : List Int :=
  match getRec cache (normalizeUsername username) with
  | none => []
  | some r => (r.scores.getD []).map (·.value)

/-- Rounding to one decimal place the way `getAverageScore` does:
`Math.round(q * 10) / 10`. -/
def roundToOneDecimal (q : ℚ) : ℚ := (jsRound (q * 10) : ℚ) / 10

/-- A record that justifies its existence: non-empty note text or at
least one stored sample. -/
def recNonEmpty (r : NoteRecord) : Prop :=
  r.note ≠ "" ∨ (r.scores.getD []).length > 0

/-- Every record present in the cache is non-empty. -/
def cacheInv (cache : NotesCache) : Prop :=
  ∀ k r, getRec cache k = some r → recNonEmpty r

/-- One mutation of the note collection. -/
inductive NoteOp where
  | save (username : String) (noteText : Option String) (score : Option Int) (now : Nat)
  | delScore (username : String) (index : Int) (now : Nat)

/-- Run one mutation against the cache. -/
def applyOp (cache : NotesCache) : NoteOp → NotesCache
  | .save u t s n => (saveNote cache u t s n).cache
  | .delScore u i n => (deleteScoreAtIndex cache u i n).cache

/-- Run a sequence of mutations left to right. -/
def applyOps (cache : NotesCache) (ops : List NoteOp) : NotesCache :=
  ops.foldl applyOp cache

/-! ### Concrete values used in claim statements and witnesses -/

/-- A record with empty note, no legacy field, and the given samples. -/
def mkRec (scs : List ScoreSample) (c u : Nat) : NoteRecord :=
  { note := "", score := none, scores := some scs, createdAt := c, updatedAt := u }

/-- Six upserts with scores 1..6 for user "user", empty text. -/
def c1Ops (t1 t2 t3 t4 t5 t6 : Nat) : List NoteOp :=
  [NoteOp.save "user" none (some 1) t1, NoteOp.save "user" none (some 2) t2,
   NoteOp.save "user" none (some 3) t3, NoteOp.save "user" none (some 4) t4,
   NoteOp.save "user" none (some 5) t5, NoteOp.save "user" none (some 6) t6]

/-- A one-entry logger state used as the C4 witness input. -/
def oneEntryLoggerState : LoggerState :=
  { logQueue := [⟨1, "content", "log", "m"⟩], flushTimeout := some 100,
    isFlushing := false, stored := [] }

/-- A record with note text but an empty samples list. -/
def zoeNoScores : NoteRecord :=
  { note := "hi", score := none, scores := some [], createdAt := 1, updatedAt := 1 }

/-- A legacy-format record: numeric `score` field, no `scores` array. -/
def legacyRec (nt : String) (v : Int) (c T : Nat) : NoteRecord :=
  { note := nt, score := some (some v), scores := none, createdAt := c, updatedAt := T }

/-- The lifted form of `legacyRec`: one sample carrying timestamp `ts`,
legacy field removed. -/
def migratedRec (nt : String) (v : Int) (c T ts : Nat) : NoteRecord :=
  { note := nt, score := none, scores := some [{ value := v, timestamp := ts }],
    createdAt := c, updatedAt := T }

/-! ### Association-list lemmas -/

theorem normalizeUsername_eq_toLower (s : String) :
    normalizeUsername s = ⟨replaceFirstAt s.toLower.data⟩ := by
  have h : s.toLower.data = s.data.map Char.toLower := by
    show (String.map Char.toLower s).data = _
    rw [String.map_eq]
  rw [normalizeUsername, h]

theorem getRec_setRec (cache : NotesCache) (k : String) (v : NoteRecord) (k' : String) :
    getRec (setRec cache k v) k' = if k = k' then some v else getRec cache k' := by
  induction cache with
  | nil =>
      by_cases h : k = k' <;> simp [setRec, getRec, h]
  | cons p ps ih =>
      by_cases hp : p.1 = k
      · by_cases h : k = k'
        · simp [setRec, getRec, hp, h]
        · have hp' : ¬ p.1 = k' := by rw [hp]; exact h
          simp [setRec, getRec, hp, h, hp']
      · by_cases h : p.1 = k'
        · have hkk : ¬ k = k' := fun e => hp (h.trans e.symm)
          have hkk' : ¬ k' = k := fun e => hkk e.symm
          simp [setRec, getRec, hp, h, hkk, hkk']
        · simp [setRec, getRec, hp, h, ih]

theorem getRec_delRec (cache : NotesCache) (k : String) (k' : String) :
    getRec (delRec cache k) k' = if k = k' then none else getRec cache k' := by
  induction cache with
  | nil => by_cases h : k = k' <;> simp [delRec, getRec, h]
  | cons p ps ih =>
      by_cases hp : p.1 = k
      · by_cases h : k = k'
        · subst h
          simp [delRec, getRec, hp, ih]
        · have hp' : ¬ p.1 = k' := by rw [hp]; exact h
          simp [delRec, getRec, hp, h, hp', ih]
      · by_cases h : p.1 = k'
        · have hkk : ¬ k = k' := fun e => hp (h.trans e.symm)
          have hkk' : ¬ k' = k := fun e => hkk e.symm
          simp [delRec, getRec, hp, h, hkk, hkk', ih]
        · simp [delRec, getRec, hp, h, ih]

theorem delRec_of_getRec_none (cache : NotesCache) (k : String)
    (h : getRec cache k = none) : delRec cache k = cache := by
  induction cache with
  | nil => rfl
  | cons p ps ih =>
      simp only [getRec] at h
      by_cases hp : p.1 = k
      · simp [hp] at h
      · simp [hp] at h
        simp [delRec, hp, ih h]

theorem cacheInv_setRec (cache : NotesCache) (k : String) (v : NoteRecord)
    (h : cacheInv cache) (hv : recNonEmpty v) : cacheInv (setRec cache k v) := by
  intro k' r hr
  rw [getRec_setRec] at hr
  by_cases e : k = k'
  · rw [if_pos e] at hr
    injection hr with e2
    exact e2 ▸ hv
  · rw [if_neg e] at hr
    exact h k' r hr

theorem cacheInv_delRec (cache : NotesCache) (k : String)
    (h : cacheInv cache) : cacheInv (delRec cache k) := by
  intro k' r hr
  rw [getRec_delRec] at hr
  by_cases e : k = k'
  · rw [if_pos e] at hr
    exact absurd hr (by simp)
  · rw [if_neg e] at hr
    exact h k' r hr

theorem saveNote_cacheInv (cache : NotesCache) (u : String) (t : Option String)
    (s : Option Int) (n : Nat) (h : cacheInv cache) :
    cacheInv (saveNote cache u t s n).cache := by
  simp only [saveNote]
  split
  · next hc => exact cacheInv_setRec _ _ _ h hc
  · exact cacheInv_delRec _ _ h

theorem deleteScoreAtIndex_cacheInv (cache : NotesCache) (u : String) (i : Int)
    (n : Nat) (h : cacheInv cache) :
    cacheInv (deleteScoreAtIndex cache u i n).cache := by
  simp only [deleteScoreAtIndex]
  split
  · exact h
  · split
    · exact h
    · split
      · split
        · next hc => exact cacheInv_setRec _ _ _ h hc
        · exact cacheInv_delRec _ _ h
      · exact h

theorem applyOps_cacheInv (ops : List NoteOp) :
    ∀ cache, cacheInv cache → cacheInv (applyOps cache ops) := by
  induction ops with
  | nil => intro c h; exact h
  | cons op rest ih =>
      intro c h
      have h1 : cacheInv (applyOp c op) := by
        cases op with
        | save u t s n => exact saveNote_cacheInv c u t s n h
        | delScore u i n => exact deleteScoreAtIndex_cacheInv c u i n h
      exact ih _ h1

theorem cacheInv_nil : cacheInv [] := by
  intro k r hr
  simp [getRec] at hr

/-! ### Character-level facts about `Char.toLower` and `replaceFirstAt` -/

theorem char_toNat_ofNat_valid (n : Nat) (h : n < 55296) : (Char.ofNat n).toNat = n := by
  have hv : n.isValidChar := Or.inl h
  rw [Char.ofNat, dif_pos hv]
  simp [Char.ofNatAux, Char.toNat, UInt32.toNat]

theorem toLower_eq_at_iff (c : Char) : Char.toLower c = '@' ↔ c = '@' := by
  have hat : ('@').toNat = 64 := rfl
  unfold Char.toLower
  by_cases h : c.toNat ≥ 65 ∧ c.toNat ≤ 90
  · rw [if_pos h]
    constructor
    · intro he
      exfalso
      have h1 : (Char.ofNat (c.toNat + 32)).toNat = c.toNat + 32 :=
        char_toNat_ofNat_valid _ (by omega)
      rw [he, hat] at h1
      omega
    · intro he
      exfalso
      rw [he, hat] at h
      omega
  · rw [if_neg h]

theorem toLower_toLower (c : Char) : Char.toLower (Char.toLower c) = Char.toLower c := by
  by_cases h : c.toNat ≥ 65 ∧ c.toNat ≤ 90
  · have e1 : Char.toLower c = Char.ofNat (c.toNat + 32) := by
      unfold Char.toLower
      rw [if_pos h]
    have h1 : (Char.ofNat (c.toNat + 32)).toNat = c.toNat + 32 :=
      char_toNat_ofNat_valid _ (by omega)
    rw [e1]
    unfold Char.toLower
    rw [if_neg (by omega :
      ¬((Char.ofNat (c.toNat + 32)).toNat ≥ 65 ∧ (Char.ofNat (c.toNat + 32)).toNat ≤ 90))]
  · have e1 : Char.toLower c = c := by
      unfold Char.toLower
      rw [if_neg h]
    rw [e1, e1]

theorem replaceFirstAt_of_not_mem (l : List Char) (h : '@' ∉ l) : replaceFirstAt l = l := by
  induction l with
  | nil => rfl
  | cons c cs ih =>
      rw [List.mem_cons, not_or] at h
      obtain ⟨h1, h2⟩ := h
      have hc : ¬(c = '@') := fun e => h1 e.symm
      simp [replaceFirstAt, hc, ih h2]

theorem not_mem_replaceFirstAt (l : List Char) (h : l.count '@' ≤ 1) :
    '@' ∉ replaceFirstAt l := by
  induction l with
  | nil => simp [replaceFirstAt]
  | cons c cs ih =>
      by_cases hc : c = '@'
      · subst hc
        simp only [replaceFirstAt, if_pos rfl]
        rw [List.count_cons_self] at h
        have h0 : cs.count '@' = 0 := by omega
        exact List.count_eq_zero.mp h0
      · have hcount : cs.count '@' ≤ 1 := by
          rw [List.count_cons] at h
          omega
        have hne : ¬('@' = c) := fun e => hc e.symm
        simp [replaceFirstAt, hc, hne, ih hcount]

theorem map_toLower_replaceFirstAt (l : List Char) :
    (replaceFirstAt l).map Char.toLower = replaceFirstAt (l.map Char.toLower) := by
  induction l with
  | nil => rfl
  | cons c cs ih =>
      by_cases hc : c = '@'
      · subst hc
        have hl : Char.toLower '@' = '@' := rfl
        simp [replaceFirstAt, hl]
      · have hc2 : ¬(Char.toLower c = '@') := fun e => hc ((toLower_eq_at_iff c).mp e)
        simp [replaceFirstAt, hc, hc2, ih]

theorem count_at_map_toLower (l : List Char) :
    (l.map Char.toLower).count '@' = l.count '@' := by
  induction l with
  | nil => rfl
  | cons c cs ih =>
      by_cases hc : c = '@'
      · subst hc
        have hl : Char.toLower '@' = '@' := rfl
        simp [List.count_cons, hl, ih]
      · have hc2 : ¬(Char.toLower c = '@') := fun e => hc ((toLower_eq_at_iff c).mp e)
        have hne : ¬('@' = c) := fun e => hc e.symm
        have hne2 : ¬('@' = Char.toLower c) := fun e => hc2 e.symm
        simp [List.count_cons, hne, hne2, ih]

theorem map_toLower_idem (l : List Char) :
    (l.map Char.toLower).map Char.toLower = l.map Char.toLower := by
  rw [List.map_map]
  exact List.map_congr_left fun a _ => toLower_toLower a

/-- C3, counterexample: `normalizeUsername` is NOT idempotent on every
input — on `"@@a"` the first application removes only the first of the
two markers, the second removes the other — and it does not strip only a
single LEADING marker: on `"a@b"` (whose marker is not leading) it still
removes the marker. -/
theorem claim_C3_counterexample :
    normalizeUsername (normalizeUsername "@@a") ≠ normalizeUsername "@@a" ∧
    normalizeUsername "a@b" = "ab" := by
  constructor <;> decide

/-- C3, amended: `normalizeUsername` lowercases the input and removes the
first occurrence of the marker character anywhere in the string; it is
idempotent on every input containing at most one marker character. -/
theorem claim_C3_theorem (x : String) (h : x.data.count '@' ≤ 1) :
    normalizeUsername (normalizeUsername x) = normalizeUsername x := by
  have key : replaceFirstAt ((replaceFirstAt (x.data.map Char.toLower)).map Char.toLower) =
      replaceFirstAt (x.data.map Char.toLower) := by
    rw [map_toLower_replaceFirstAt, map_toLower_idem]
    apply replaceFirstAt_of_not_mem
    apply not_mem_replaceFirstAt
    rw [count_at_map_toLower]
    exact h
  show (⟨replaceFirstAt ((replaceFirstAt (x.data.map Char.toLower)).map Char.toLower)⟩ : String) =
    ⟨replaceFirstAt (x.data.map Char.toLower)⟩
  rw [key]

/-- C3 witness: a concrete input with one marker on which idempotence
holds. -/
theorem claim_C3_witness :
    ("@Ab".data.count '@' ≤ 1) ∧
    normalizeUsername (normalizeUsername "@Ab") = normalizeUsername "@Ab" :=
  ⟨by decide, claim_C3_theorem "@Ab" (by decide)⟩

/-- C1, counterexample: after the six upserts with scores 1,2,3,4,5,6 the
stored sample values are NOT `[2,3,4,5,6]` (they are `[1,2,3,4,5]`: the
sixth call's score 6 fails the `score <= 5` range check and appends
nothing, so the five-sample cap never trims). -/
theorem claim_C1_counterexample :
    scoreValues (applyOps [] (c1Ops 10 20 30 40 50 60)) "user" ≠ [2, 3, 4, 5, 6] := by
  decide

/-- C1, amended: for a username with no existing record, six sequential
`saveNote` calls with empty text and scores 1,2,3,4,5,6 (at arbitrary
times) leave the stored sample list with length 5 and values
`[1,2,3,4,5]` in that order — the out-of-range score 6 is ignored. -/
theorem claim_C1_theorem (t1 t2 t3 t4 t5 t6 : Nat) :
    scoreValues (applyOps [] (c1Ops t1 t2 t3 t4 t5 t6)) "user" = [1, 2, 3, 4, 5] ∧
    (scoreValues (applyOps [] (c1Ops t1 t2 t3 t4 t5 t6)) "user").length = 5 := by
  have hn : normalizeUsername "user" = "user" := by decide
  have s1 : (saveNote [] "user" none (some 1) t1).cache =
      [("user", mkRec [⟨1, t1⟩] t1 t1)] := by
    simp [saveNote, hn, getRec, setRec, mkRec]
  have s2 : (saveNote [("user", mkRec [⟨1, t1⟩] t1 t1)] "user" none (some 2) t2).cache =
      [("user", mkRec [⟨1, t1⟩, ⟨2, t2⟩] t1 t2)] := by
    simp [saveNote, hn, getRec, setRec, migrateNoteFormat, mkRec]
  have s3 : (saveNote [("user", mkRec [⟨1, t1⟩, ⟨2, t2⟩] t1 t2)] "user" none (some 3) t3).cache =
      [("user", mkRec [⟨1, t1⟩, ⟨2, t2⟩, ⟨3, t3⟩] t1 t3)] := by
    simp [saveNote, hn, getRec, setRec, migrateNoteFormat, mkRec]
  have s4 : (saveNote [("user", mkRec [⟨1, t1⟩, ⟨2, t2⟩, ⟨3, t3⟩] t1 t3)]
        "user" none (some 4) t4).cache =
      [("user", mkRec [⟨1, t1⟩, ⟨2, t2⟩, ⟨3, t3⟩, ⟨4, t4⟩] t1 t4)] := by
    simp [saveNote, hn, getRec, setRec, migrateNoteFormat, mkRec]
  have s5 : (saveNote [("user", mkRec [⟨1, t1⟩, ⟨2, t2⟩, ⟨3, t3⟩, ⟨4, t4⟩] t1 t4)]
        "user" none (some 5) t5).cache =
      [("user", mkRec [⟨1, t1⟩, ⟨2, t2⟩, ⟨3, t3⟩, ⟨4, t4⟩, ⟨5, t5⟩] t1 t5)] := by
    simp [saveNote, hn, getRec, setRec, migrateNoteFormat, mkRec]
  have s6 : (saveNote [("user", mkRec [⟨1, t1⟩, ⟨2, t2⟩, ⟨3, t3⟩, ⟨4, t4⟩, ⟨5, t5⟩] t1 t5)]
        "user" none (some 6) t6).cache =
      [("user", mkRec [⟨1, t1⟩, ⟨2, t2⟩, ⟨3, t3⟩, ⟨4, t4⟩, ⟨5, t5⟩] t1 t6)] := by
    simp [saveNote, hn, getRec, setRec, migrateNoteFormat, mkRec]
  have hall : applyOps [] (c1Ops t1 t2 t3 t4 t5 t6) =
      [("user", mkRec [⟨1, t1⟩, ⟨2, t2⟩, ⟨3, t3⟩, ⟨4, t4⟩, ⟨5, t5⟩] t1 t6)] := by
    simp only [applyOps, c1Ops, List.foldl, applyOp, s1, s2, s3, s4, s5, s6]
  rw [hall]
  constructor <;> simp [scoreValues, hn, getRec, mkRec]

/-- C2: starting from an empty collection, every record produced by any
sequence of `saveNote` / `deleteScoreAtIndex` operations has a non-empty
note or a non-empty scores list; `saveNote` with empty text and null
score on a nonexistent username leaves the collection unchanged (no
record is created); and deleting the only sample of a record whose note
text is empty removes the record entirely. -/
theorem claim_C2_theorem :
    (∀ (ops : List NoteOp) (k : String) (r : NoteRecord),
        getRec (applyOps [] ops) k = some r →
        r.note ≠ "" ∨ (r.scores.getD []).length > 0) ∧
    (∀ (cache : NotesCache) (now : Nat),
        getRec cache "carol" = none →
        (saveNote cache "carol" (some "") none now).cache = cache) ∧
    (∀ (cache : NotesCache) (u : String) (r : NoteRecord) (x : ScoreSample) (now : Nat),
        getRec cache (normalizeUsername u) = some r → r.note = "" → r.scores = some [x] →
        getRec (deleteScoreAtIndex cache u 0 now).cache (normalizeUsername u) = none) := by
  refine ⟨?_, ?_, ?_⟩
  · intro ops k r hr
    exact applyOps_cacheInv ops [] cacheInv_nil k r hr
  · intro cache now h
    have hn : normalizeUsername "carol" = "carol" := by decide
    simp only [saveNote, hn, h]
    simp
    exact delRec_of_getRec_none cache "carol" h
  · intro cache u r x now hget hnote hsc
    simp only [deleteScoreAtIndex, hget, hsc]
    norm_num
    simp [hnote, getRec_delRec]

/-- C2 witness: concrete instances of all three parts. -/
theorem claim_C2_witness :
    ((mkRec [⟨4, 10⟩] 10 10).note ≠ "" ∨ ((mkRec [⟨4, 10⟩] 10 10).scores.getD []).length > 0) ∧
    (saveNote [] "carol" (some "") none 5).cache = [] ∧
    getRec (deleteScoreAtIndex [("dave", mkRec [⟨3, 10⟩] 10 10)] "dave" 0 20).cache
      (normalizeUsername "dave") = none :=
  ⟨claim_C2_theorem.1 [NoteOp.save "bob" none (some 4) 10] "bob" (mkRec [⟨4, 10⟩] 10 10)
      (by decide),
   claim_C2_theorem.2.1 [] 5 (by decide),
   claim_C2_theorem.2.2 [("dave", mkRec [⟨3, 10⟩] 10 10)] "dave" (mkRec [⟨3, 10⟩] 10 10)
      ⟨3, 10⟩ 20 (by decide) rfl rfl⟩

theorem lastN_length_le (n : Nat) (l : List LogEntry) : (lastN n l).length ≤ n := by
  simp [lastN]
  omega

theorem lastN_of_le {n : Nat} {l : List LogEntry} (h : l.length ≤ n) : lastN n l = l := by
  simp [lastN, Nat.sub_eq_zero_of_le h]

/-- C4: when a flush actually runs (queue non-empty, no flush already in
flight), `flushLogs` writes back the persisted list with the queued
entries appended in enqueue order and trimmed to the most recent
`XPN_MAX_LOGS = 1000` entries (oldest dropped from the front), drains the
queue, and the persisted list afterwards has length at most 1000. -/
theorem claim_C4_theorem (st : LoggerState) (hq : st.logQueue ≠ [])
    (hf : st.isFlushing = false) :
    (flushLogs st).stored = lastN XPN_MAX_LOGS (st.stored ++ st.logQueue) ∧
    (flushLogs st).logQueue = [] ∧
    (flushLogs st).stored.length ≤ XPN_MAX_LOGS := by
  have hflush : flushLogs st =
      { logQueue := [], flushTimeout := none, isFlushing := false,
        stored := if (st.stored ++ st.logQueue).length > XPN_MAX_LOGS
          then lastN XPN_MAX_LOGS (st.stored ++ st.logQueue) else st.stored ++ st.logQueue } := by
    simp [flushLogs, hq, hf]
  refine ⟨?_, ?_, ?_⟩
  · rw [hflush]
    show (if (st.stored ++ st.logQueue).length > XPN_MAX_LOGS
        then lastN XPN_MAX_LOGS (st.stored ++ st.logQueue) else st.stored ++ st.logQueue) =
      lastN XPN_MAX_LOGS (st.stored ++ st.logQueue)
    by_cases hlen : (st.stored ++ st.logQueue).length > XPN_MAX_LOGS
    · rw [if_pos hlen]
    · rw [if_neg hlen]
      exact (lastN_of_le (Nat.le_of_not_lt hlen)).symm
  · rw [hflush]
  · rw [hflush]
    show (if (st.stored ++ st.logQueue).length > XPN_MAX_LOGS
        then lastN XPN_MAX_LOGS (st.stored ++ st.logQueue)
        else st.stored ++ st.logQueue).length ≤ XPN_MAX_LOGS
    by_cases hlen : (st.stored ++ st.logQueue).length > XPN_MAX_LOGS
    · rw [if_pos hlen]
      exact lastN_length_le _ _
    · rw [if_neg hlen]
      exact Nat.le_of_not_lt hlen

/-- C4 witness: a concrete one-entry flush. -/
theorem claim_C4_witness :
    (flushLogs oneEntryLoggerState).stored =
      lastN XPN_MAX_LOGS (oneEntryLoggerState.stored ++ oneEntryLoggerState.logQueue) ∧
    (flushLogs oneEntryLoggerState).logQueue = [] ∧
    (flushLogs oneEntryLoggerState).stored.length ≤ XPN_MAX_LOGS :=
  claim_C4_theorem oneEntryLoggerState (by decide) rfl

/-- C5, counterexample: with no timer pending, enqueues at t=0 and t=50
(both within the 100 ms debounce window) leave the timer armed for t=100
— one full delay after the FIRST enqueue — not t=150 as restart-on-every-
enqueue semantics would require. -/
theorem claim_C5_counterexample :
    (applyLogCalls { logQueue := [], flushTimeout := none, isFlushing := false, stored := [] }
      [{ source := "content", level := "log", message := "a", time := 0 },
       { source := "content", level := "log", message := "b", time := 50 }]).flushTimeout =
      some 100 ∧ (100 : Nat) ≠ 50 + 100 := by
  exact ⟨rfl, by decide⟩

theorem xpnLog_preserves_timer (st : LoggerState) (s l m : String) (now T : Nat)
    (h : st.flushTimeout = some T) : (xpnLog st s l m now).flushTimeout = some T := by
  simp [xpnLog, h]

theorem applyLogCalls_preserves_timer (cs : List LogCall) :
    ∀ (st : LoggerState) (T : Nat), st.flushTimeout = some T →
      (applyLogCalls st cs).flushTimeout = some T := by
  induction cs with
  | nil => intro st T h; exact h
  | cons c rest ih =>
      intro st T h
      exact ih _ T (xpnLog_preserves_timer st c.source c.level c.message c.time T h)

/-- C5, amended: `xpnLog` arms the flush timer only when none is pending
(it never cancels or re-arms a pending timer), so a burst of enqueues
starting with no timer pending leaves a single timer armed one full
100 ms delay after the FIRST enqueue of the burst. -/
theorem claim_C5_theorem :
    (∀ (st : LoggerState) (s l m : String) (now T : Nat),
        st.flushTimeout = some T → (xpnLog st s l m now).flushTimeout = some T) ∧
    (∀ (st : LoggerState) (c : LogCall) (cs : List LogCall),
        st.flushTimeout = none →
        (applyLogCalls st (c :: cs)).flushTimeout = some (c.time + 100)) := by
  constructor
  · exact xpnLog_preserves_timer
  · intro st c cs h
    have h1 : (xpnLog st c.source c.level c.message c.time).flushTimeout =
        some (c.time + 100) := by
      simp [xpnLog, h]
    exact applyLogCalls_preserves_timer cs _ _ h1

/-- C5 witness: concrete instances of both parts. -/
theorem claim_C5_witness :
    (xpnLog { logQueue := [], flushTimeout := some 77, isFlushing := false, stored := [] }
        "content" "log" "a" 5).flushTimeout = some 77 ∧
    (applyLogCalls { logQueue := [], flushTimeout := none, isFlushing := false, stored := [] }
      [{ source := "content", level := "log", message := "a", time := 0 },
       { source := "content", level := "log", message := "b", time := 50 }]).flushTimeout =
      some (0 + 100) :=
  ⟨claim_C5_theorem.1 _ "content" "log" "a" 5 77 rfl,
   claim_C5_theorem.2 _ { source := "content", level := "log", message := "a", time := 0 }
     [{ source := "content", level := "log", message := "b", time := 50 }] rfl⟩

/-- C6: `getAverageScore` returns the null sentinel when the record is
missing or has no samples, returns the sample mean rounded to one decimal
place (JS `Math.round(mean * 10) / 10`) when samples exist, and the
concrete scenario upserting scores 4, 5, 3 for a fresh user "bob" yields
exactly 4. -/
theorem claim_C6_theorem :
    (∀ (cache : NotesCache) (u : String),
        getRec cache (normalizeUsername u) = none → getAverageScore cache u = none) ∧
    (∀ (cache : NotesCache) (u : String) (r : NoteRecord),
        getRec cache (normalizeUsername u) = some r →
        (r.scores = none ∨ r.scores = some []) → getAverageScore cache u = none) ∧
    (∀ (cache : NotesCache) (u : String) (r : NoteRecord) (scs : List ScoreSample),
        getRec cache (normalizeUsername u) = some r → r.scores = some scs → scs ≠ [] →
        getAverageScore cache u =
          some (roundToOneDecimal ((sumValues scs : ℚ) / scs.length))) ∧
    getAverageScore (applyOps [] [NoteOp.save "bob" (some "") (some 4) 10,
      NoteOp.save "bob" (some "") (some 5) 20, NoteOp.save "bob" (some "") (some 3) 30])
      "bob" = some 4 := by
  refine ⟨?_, ?_, ?_, ?_⟩
  · intro cache u h
    simp [getAverageScore, h]
  · intro cache u r h hs
    rcases hs with hs | hs <;> simp [getAverageScore, h, hs]
  · intro cache u r scs h hs hne
    cases scs with
    | nil => exact absurd rfl hne
    | cons a l => simp [getAverageScore, h, hs, roundToOneDecimal]
  · have hcache : applyOps [] [NoteOp.save "bob" (some "") (some 4) 10,
        NoteOp.save "bob" (some "") (some 5) 20, NoteOp.save "bob" (some "") (some 3) 30] =
        [("bob", mkRec [⟨4, 10⟩, ⟨5, 20⟩, ⟨3, 30⟩] 10 30)] := by
      decide
    rw [hcache]
    have hn : normalizeUsername "bob" = "bob" := by decide
    simp only [getAverageScore, hn, getRec, mkRec]
    norm_num [sumValues]
    have h40 : jsRound 40 = 40 := by
      rw [jsRound, Int.floor_eq_iff]
      constructor <;> norm_num
    rw [h40]
    norm_num

/-- C6 witness: concrete instances of the three conditional parts. -/
theorem claim_C6_witness :
    getAverageScore [] "zoe" = none ∧
    getAverageScore [("zoe", zoeNoScores)] "zoe" = none ∧
    getAverageScore [("zoe", mkRec [⟨5, 1⟩] 1 1)] "zoe" =
      some (roundToOneDecimal ((sumValues [⟨5, 1⟩] : ℚ) / ([⟨5, 1⟩] : List ScoreSample).length)) :=
  ⟨claim_C6_theorem.1 [] "zoe" rfl,
   claim_C6_theorem.2.1 _ "zoe" zoeNoScores (by decide) (Or.inr rfl),
   claim_C6_theorem.2.2.1 _ "zoe" (mkRec [⟨5, 1⟩] 1 1) [⟨5, 1⟩] (by decide) rfl (by decide)⟩

/-- C8: a bridge log request dispatched at `t0` with no responder
registered (no response event ever fires) resolves to the empty list,
settling exactly when the 2000 ms timeout fires — never later, and it
never hangs. -/
theorem claim_C8_theorem (t0 : Nat) :
    getExtensionLogs [] t0 = ([], t0 + BRIDGE_TIMEOUT_MS) ∧
    (getExtensionLogs [] t0).1 = [] ∧
    (getExtensionLogs [] t0).2 ≤ t0 + 2000 := by
  refine ⟨rfl, rfl, ?_⟩
  simp [getExtensionLogs, BRIDGE_TIMEOUT_MS]

/-- C9: `deleteScoreAtIndex` with a missing record or an index holding no
sample (negative or out of bounds) returns false and performs no
mutation and no storage write: the full result is the unchanged cache
with `ret = false` and `wrote = false`. -/
theorem claim_C9_theorem (cache : NotesCache) (u : String) (i : Int) (now : Nat)
    (h : sampleAt cache u i = none) :
    deleteScoreAtIndex cache u i now = { cache := cache, ret := false, wrote := false } := by
  cases hg : getRec cache (normalizeUsername u) with
  | none => simp [deleteScoreAtIndex, hg]
  | some nd =>
      cases hs : nd.scores with
      | none => simp [deleteScoreAtIndex, hg, hs]
      | some scs =>
          simp only [sampleAt, hg, hs] at h
          by_cases hb : 0 ≤ i ∧ i < (scs.length : Int)
          · exfalso
            rw [if_pos hb] at h
            have hlen : scs.length ≤ i.toNat := List.get?_eq_none.mp h
            omega
          · simp [deleteScoreAtIndex, hg, hs, hb]

/-- C9 witness: deleting from a nonexistent user is a no-op returning
false. -/
theorem claim_C9_witness :
    sampleAt [] "nobody" 0 = none ∧
    deleteScoreAtIndex [] "nobody" 0 99 = { cache := [], ret := false, wrote := false } :=
  ⟨rfl, claim_C9_theorem [] "nobody" 0 99 rfl⟩

/-- C10: `saveNote` with an out-of-range score (below 1 or above 5) is
indistinguishable from the same call with a null score — the scores list
is untouched while the note text and `updatedAt` are still set — and it
signals no error (returns true). -/
theorem claim_C10_theorem (cache : NotesCache) (u : String) (t : Option String)
    (now : Nat) (s : Int) (h : s < 1 ∨ 5 < s) :
    saveNote cache u t (some s) now = saveNote cache u t none now ∧
    (saveNote cache u t (some s) now).ret = true := by
  have hcond : ¬(1 ≤ s ∧ s ≤ 5) := by
    rcases h with h | h <;> omega
  constructor
  · simp only [saveNote]
    rw [if_neg hcond]
  · rfl

/-- C10 witness: score 6 behaves exactly like a null score. -/
theorem claim_C10_witness :
    saveNote [] "eve" none (some 6) 42 = saveNote [] "eve" none none 42 ∧
    (saveNote [] "eve" none (some 6) 42).ret = true :=
  claim_C10_theorem [] "eve" none 42 6 (by decide)

/-- C7, counterexample: the claim's lifting law fails at `updatedAt = 0`
(a falsy timestamp): `noteData.updatedAt || Date.now()` then substitutes
the current time, so the migrated sample's timestamp is not the record's
`updatedAt`. -/
theorem claim_C7_counterexample :
    (migrateNoteFormat 1000 (legacyRec "" 4 0 0)).scores ≠
      some [{ value := 4, timestamp := 0 }] := by
  decide

/-- C7, amended: for every nonzero (truthy) `updatedAt = T`,
`migrateNoteFormat` lifts a legacy record with `score = v` and no
`scores` field to one whose scores list is `[{value, timestamp = T}]`
with the legacy field removed; and migration is a no-op on every record
that already has a `scores` list. -/
theorem claim_C7_theorem :
    (∀ (nt : String) (v : Int) (c T now : Nat), T ≠ 0 →
        migrateNoteFormat now (legacyRec nt v c T) = migratedRec nt v c T T) ∧
    (∀ (r : NoteRecord) (l : List ScoreSample) (now : Nat),
        r.scores = some l → migrateNoteFormat now r = r) := by
  constructor
  · intro nt v c T now hT
    simp [migrateNoteFormat, legacyRec, migratedRec, hT]
  · intro r l now h
    simp [migrateNoteFormat, h]

/-- C7 witness: a concrete lift at T = 7 and a concrete no-op. -/
theorem claim_C7_witness :
    migrateNoteFormat 1000 (legacyRec "" 4 0 7) = migratedRec "" 4 0 7 7 ∧
    migrateNoteFormat 5 zoeNoScores = zoeNoScores :=
  ⟨claim_C7_theorem.1 "" 4 0 7 1000 (by decide),
   claim_C7_theorem.2 zoeNoScores [] 5 rfl⟩

end XPN
